import Mathlib

/-!
Shallow embedding of the insura rule engine.

Source layout:
* `src/RuleEngine/Utilities/Operations.ts` — the shared comparator and the
  operator library (each operator is a binary predicate over a fact value
  and a rule value, returning a boolean or raising one of the engine
  errors).
* `src/RuleEngine/RuleEngine.ts` — the recursive evaluator that walks a
  rule tree against a context and accumulates an evaluation history.
* `src/RuleEngine/Models/Error.ts` — the error taxonomy.
* `src/RuleEngine/Models/Rule.ts` — the rule grammar.

Modelling conventions:
* JavaScript numbers are modelled as `Int` (the integer fragment; floats
  and NaN literals are outside the model, NaN arising from coercions is
  modelled by `Option`).
* Date objects are modelled by their millisecond timestamp.
* Reference types (dates, arrays, other objects) compare as distinct
  references under strict equality, so `jsStrictEq` is `false` on them.
* The wall clock read by `new Date()` inside `withinLast` is threaded
  through the evaluator as an explicit `now : Int` parameter.
* The regular-expression engine and locale collation are abstracted:
  `regexSyntaxOk` models the fallible pattern compilation of
  `new RegExp` (which throws a native `SyntaxError` on a malformed
  pattern, an abort path outside the engine error classes, modelled
  by the extra error constructor `nativeSyntaxError`), and `regexTest` is
  a total matcher for a pattern that compiled; no claim depends on which
  strings a particular compiled pattern matches.
-/

namespace Insura

/-- The fragment of JavaScript runtime values the engine manipulates:
`undefined`, `null`, booleans, numbers (as `Int`), strings, `Date`
objects (as ms timestamps), arrays, and a constructor `obj` standing for
any other object (e.g. a `Map`). -/
inductive Value where
  | undefined
  | null
  | bool (b : Bool)
  | num (n : Int)
  | str (s : String)
  | date (ms : Int)
  | arr (elems : List Value)
  | obj

/-- JavaScript strict equality `===` on the modelled fragment: structural
on primitives; reference types are modelled as pairwise-distinct
references, hence never strictly equal. -/
def jsStrictEq : Value → Value → Bool
  | .undefined, .undefined => true
  | .null, .null => true
  | .bool a, .bool b => a == b
  | .num a, .num b => a == b
  | .str a, .str b => a == b
  | _, _ => false

/-- The integer fragment of the ToNumber conversion applied to a string:
leading and trailing whitespace is dropped, the empty string converts to
0, an optional sign followed by digits converts to the signed value, and
anything else is NaN (`none`). -/
def parseJSNumber (s : String) : Option Int :=
  let t := s.trim
  if t.isEmpty then some 0
  else if t.startsWith "-" then ((t.drop 1).toNat?).map (fun n => -(n : Int))
  else if t.startsWith "+" then ((t.drop 1).toNat?).map (fun n => (n : Int))
  else (t.toNat?).map (fun n => (n : Int))

mutual

/-- JavaScript ToString on the modelled fragment (the `Date` rendering is
abstracted; no claim depends on it). -/
def toJSString : Value → String
  | .undefined => "undefined"
  | .null => "null"
  | .bool b => cond b "true" "false"
  | .num n => toString n
  | .str s => s
  | .date ms => "Date(" ++ toString ms ++ ")"
  | .arr vs => joinElems vs
  | .obj => "[object Object]"

/-- The `Array.prototype.toString`: elements joined with commas, where
`undefined` and `null` elements render as the empty string. -/
def joinElems : List Value → String
  | [] => ""
  | v :: vs =>
      (match v with
        | .undefined => ""
        | .null => ""
        | _ => toJSString v)
      ++ (if vs.isEmpty then "" else ",") ++ joinElems vs

end

/-- JavaScript ToNumber on the modelled fragment; `none` models NaN. -/
def toNumber : Value → Option Int
  | .undefined => none
  | .null => some 0
  | .bool b => some (cond b 1 0)
  | .num n => some n
  | .str s => parseJSNumber s
  | .date ms => some ms
  | .arr vs => parseJSNumber (joinElems vs)
  | .obj => none

/-- JavaScript `n < v` with a number on the left: the right operand goes
through ToNumber; a NaN comparison is false. -/
def jsLtNum (n : Int) (v : Value) : Bool :=
  match toNumber v with
  | some m => decide (n < m)
  | none => false

/-- JavaScript `n > v` with a number on the left. -/
def jsGtNum (n : Int) (v : Value) : Bool :=
  match toNumber v with
  | some m => decide (m < n)
  | none => false

/-- JavaScript `n <= v` with a number on the left. -/
def jsLeNum (n : Int) (v : Value) : Bool :=
  match toNumber v with
  | some m => decide (n ≤ m)
  | none => false

/-- The ways an evaluation can abort. The first five constructors are
the closed engine taxonomy of `src/RuleEngine/Models/Error.ts` (the
`invalidOperator` payload records the interpolated operator name);
`nativeSyntaxError` is not an engine error class but models the
JS-native `SyntaxError` thrown by `new RegExp` on a malformed pattern
string inside the `regex` and `matches` operators. -/
inductive RuleEngineError where
  | invalidOperator (operator : String)
  | invalidSizeType
  | invalidBetweenValue
  | unsupportedContextType
  | invalidRuleStructure
  | nativeSyntaxError (pattern : String)
deriving Repr, DecidableEq

/-- The `String.prototype.localeCompare` abstracted as code-point order,
returning -1, 0 or 1. -/
def localeCompare (a b : String) : Int :=
  if a < b then -1 else if a = b then 0 else 1

/-- The shared comparator `compare` of `Operations.ts`: number pairs by
subtraction, string pairs by `localeCompare`, `Date` pairs by timestamp
subtraction, everything else raises `UnsupportedType`. -/
def compare (a b : Value) : Except RuleEngineError Int :=
  match a, b with
  | .num x, .num y => .ok (x - y)
  | .str x, .str y => .ok (localeCompare x y)
  | .date x, .date y => .ok (x - y)
  | _, _ => .error .unsupportedContextType

/-- Balance check on parentheses, the fallibility model of pattern
compilation. -/
def parenBalance : List Char → Int → Bool
  | [], depth => depth == 0
  | c :: cs, depth =>
      if c = '(' then parenBalance cs (depth + 1)
      else if c = ')' then decide (0 < depth) && parenBalance cs (depth - 1)
      else parenBalance cs depth

/-- Whether `new RegExp(pattern)` compiles: the source throws a native
`SyntaxError` on a malformed pattern string (for example `"("`). The
JS regex grammar is abstracted: here a pattern compiles iff its
parentheses are balanced — an under-approximation that keeps
compilation genuinely fallible (plain strings compile, a lone `"("`
throws). No claim depends on the exact accepted set. -/
def regexSyntaxOk (pattern : String) : Bool :=
  parenBalance pattern.data 0

/-- The matching of a pattern that compiled is abstracted as a total
function: here a pattern matches iff it occurs verbatim in the subject
(or is empty). No claim depends on which strings match. -/
def regexTest (pattern s : String) : Bool :=
  pattern.isEmpty || decide (1 < (s.splitOn pattern).length)

/-- The `String.prototype.includes` on strings. -/
def strIncludes (s sub : String) : Bool :=
  sub.isEmpty || decide (1 < (s.splitOn sub).length)

/-- Length of a string or array fact; `none` when the fact is neither
(mirrors the `Array.isArray(x) || typeof x === "string"` test). -/
def jsLength : Value → Option Nat
  | .str s => some s.length
  | .arr l => some l.length
  | _ => none

/-- Date-string parsing is abstracted: a non-blank decimal-integer string
parses as a millisecond timestamp, anything else is an invalid date (NaN
time). No claim depends on the accepted set. -/
def parseDate (s : String) : Option Int :=
  if s.trim.isEmpty then none else parseJSNumber s

/-- The `new Date(value)` conversion on the modelled fragment; `none`
models an invalid date (NaN time). -/
def toDateTime : Value → Option Int
  | .undefined => none
  | .null => some 0
  | .bool b => some (cond b 1 0)
  | .num n => some n
  | .str s => parseDate s
  | .date ms => some ms
  | .arr vs => parseDate (joinElems vs)
  | .obj => none

/-- Comparison of two possibly-NaN times: false when either is NaN. -/
def optLt (a b : Option Int) : Bool :=
  match a, b with
  | some x, some y => decide (x < y)
  | _, _ => false

/-- The comparison `now - factDate.getTime() <= ruleValue` of
`withinLast`, with a NaN fact time (`none`) comparing false. -/
def diffLe (now : Int) (t : Option Int) (r : Value) : Bool :=
  match t with
  | some t => jsLeNum (now - t) r
  | none => false

namespace Operations

/-- The `equal: (f, r) => f === r`. -/
def equal (factValue ruleValue : Value) : Except RuleEngineError Bool :=
  .ok (jsStrictEq factValue ruleValue)

/-- The `notEqual: (f, r) => f !== r`. -/
def notEqual (factValue ruleValue : Value) : Except RuleEngineError Bool :=
  .ok (!jsStrictEq factValue ruleValue)

/-- The `greaterThan: (f, r) => compare(f, r) > 0`. -/
def greaterThan (factValue ruleValue : Value) : Except RuleEngineError Bool := do
  let c ← compare factValue ruleValue
  .ok (decide (0 < c))

/-- The `lessThan: (f, r) => compare(f, r) < 0`. -/
def lessThan (factValue ruleValue : Value) : Except RuleEngineError Bool := do
  let c ← compare factValue ruleValue
  .ok (decide (c < 0))

/-- The `greaterThanOrEqual: (f, r) => compare(f, r) >= 0`. -/
def greaterThanOrEqual (factValue ruleValue : Value) : Except RuleEngineError Bool := do
  let c ← compare factValue ruleValue
  .ok (decide (0 ≤ c))

/-- The `lessThanOrEqual: (f, r) => compare(f, r) <= 0`. -/
def lessThanOrEqual (factValue ruleValue : Value) : Except RuleEngineError Bool := do
  let c ← compare factValue ruleValue
  .ok (decide (c ≤ 0))

/-- The `in: (f, r) => Array.isArray(r) && r.includes(f)` (named `inOp`
because `in` is a Lean keyword). -/
def inOp (factValue ruleValue : Value) : Except RuleEngineError Bool :=
  match ruleValue with
  | .arr l => .ok (l.any (fun x => jsStrictEq x factValue))
  | _ => .ok false

/-- The `notIn: (f, r) => Array.isArray(r) && !r.includes(f)`. -/
def notIn (factValue ruleValue : Value) : Except RuleEngineError Bool :=
  match ruleValue with
  | .arr l => .ok (!l.any (fun x => jsStrictEq x factValue))
  | _ => .ok false

/-- The `contains: (f, r) => Array.isArray(f) && f.includes(r)`. -/
def contains (factValue ruleValue : Value) : Except RuleEngineError Bool :=
  match factValue with
  | .arr l => .ok (l.any (fun x => jsStrictEq x ruleValue))
  | _ => .ok false

/-- The `startsWith: (f, r) => typeof f === "string" && f.startsWith(r)`;
the argument is coerced to a string by ToString. -/
def startsWith (factValue ruleValue : Value) : Except RuleEngineError Bool :=
  match factValue with
  | .str s => .ok (s.startsWith (toJSString ruleValue))
  | _ => .ok false

/-- The `endsWith: (f, r) => typeof f === "string" && f.endsWith(r)`. -/
def endsWith (factValue ruleValue : Value) : Except RuleEngineError Bool :=
  match factValue with
  | .str s => .ok (s.endsWith (toJSString ruleValue))
  | _ => .ok false

/-- The `regex: (f, r) => typeof f === "string" && new RegExp(r).test(f)`;
the pattern argument is coerced to a string. The `&&` short-circuit
means the pattern is compiled only when the fact is a string, and a
malformed pattern then throws the native `SyntaxError`. -/
def regex (factValue ruleValue : Value) : Except RuleEngineError Bool :=
  match factValue with
  | .str s =>
      if regexSyntaxOk (toJSString ruleValue) then .ok (regexTest (toJSString ruleValue) s)
      else .error (.nativeSyntaxError (toJSString ruleValue))
  | _ => .ok false

/-- The `between`: with a two-element array rule value `[min, max]`, the
result of `compare(f, min) >= 0 && compare(f, max) <= 0` (the second
comparison is not evaluated when the first check fails, mirroring the
short-circuiting `&&`); any other rule value raises
`InvalidBetweenValue`. -/
def between (factValue ruleValue : Value) : Except RuleEngineError Bool :=
  match ruleValue with
  | .arr [min, max] => do
      let c₁ ← compare factValue min
      if 0 ≤ c₁ then
        let c₂ ← compare factValue max
        .ok (decide (c₂ ≤ 0))
      else
        .ok false
  | _ => .error .invalidBetweenValue

/-- The `size`: length of a string or array fact strictly equals the rule
value; non-sized facts raise `InvalidSizeType`. -/
def size (factValue ruleValue : Value) : Except RuleEngineError Bool :=
  match jsLength factValue with
  | some n => .ok (jsStrictEq (.num n) ruleValue)
  | none => .error .invalidSizeType

/-- The `smaller`: length of a string or array fact `<` the rule value (the
rule value goes through ToNumber); non-sized facts raise
`InvalidSizeType`. -/
def smaller (factValue ruleValue : Value) : Except RuleEngineError Bool :=
  match jsLength factValue with
  | some n => .ok (jsLtNum n ruleValue)
  | none => .error .invalidSizeType

/-- The `bigger`: length of a string or array fact `>` the rule value;
non-sized facts raise `InvalidSizeType`. -/
def bigger (factValue ruleValue : Value) : Except RuleEngineError Bool :=
  match jsLength factValue with
  | some n => .ok (jsGtNum n ruleValue)
  | none => .error .invalidSizeType

/-- The `withinLast`: for a string or `Date` fact, whether
`now - new Date(f).getTime() <= r`; other facts raise
`UnsupportedType`. A fact string that does not parse gives a NaN
difference, hence false. -/
def withinLast (now : Int) (factValue ruleValue : Value) : Except RuleEngineError Bool :=
  match factValue with
  | .str s => .ok (diffLe now (parseDate s) ruleValue)
  | .date ms => .ok (diffLe now (some ms) ruleValue)
  | _ => .error .unsupportedContextType

/-- The `before`: parsed fact date strictly precedes parsed rule date; a
non-string non-Date fact raises `UnsupportedType`; NaN dates compare
false. -/
def before (factValue ruleValue : Value) : Except RuleEngineError Bool :=
  match factValue with
  | .str s => .ok (optLt (parseDate s) (toDateTime ruleValue))
  | .date ms => .ok (optLt (some ms) (toDateTime ruleValue))
  | _ => .error .unsupportedContextType

/-- The `after`: parsed fact date strictly follows parsed rule date. -/
def after (factValue ruleValue : Value) : Except RuleEngineError Bool :=
  match factValue with
  | .str s => .ok (optLt (toDateTime ruleValue) (parseDate s))
  | .date ms => .ok (optLt (toDateTime ruleValue) (some ms))
  | _ => .error .unsupportedContextType

/-- The `exists: (f, r) => f !== undefined && f !== null` (named `existsOp`
because `exists` is a Lean keyword). -/
def existsOp (factValue _ruleValue : Value) : Except RuleEngineError Bool :=
  match factValue with
  | .undefined => .ok false
  | .null => .ok false
  | _ => .ok true

/-- The `notExists: (f, r) => f === undefined || f === null`. -/
def notExists (factValue _ruleValue : Value) : Except RuleEngineError Bool :=
  match factValue with
  | .undefined => .ok true
  | .null => .ok true
  | _ => .ok false

/-- The `containsSubstring`: both operands must be strings, then substring
containment; otherwise false. -/
def containsSubstring (factValue ruleValue : Value) : Except RuleEngineError Bool :=
  match factValue, ruleValue with
  | .str s, .str sub => .ok (strIncludes s sub)
  | _, _ => .ok false

/-- The `matches`: both operands must be strings, then the pattern is
compiled — throwing the native `SyntaxError` when malformed — and
tested; on any non-string operand the result is false without compiling
(named `matchesOp` because `matches` is a Lean keyword). -/
def matchesOp (factValue ruleValue : Value) : Except RuleEngineError Bool :=
  match factValue, ruleValue with
  | .str s, .str p =>
      if regexSyntaxOk p then .ok (regexTest p s)
      else .error (.nativeSyntaxError p)
  | _, _ => .ok false

/-- The `isEmpty`: a string or array fact of length zero; false on any other
fact. -/
def isEmpty (factValue _ruleValue : Value) : Except RuleEngineError Bool :=
  match jsLength factValue with
  | some n => .ok (decide (n = 0))
  | none => .ok false

/-- The `isNotEmpty`: a string or array fact of positive length; false on any
other fact. -/
def isNotEmpty (factValue _ruleValue : Value) : Except RuleEngineError Bool :=
  match jsLength factValue with
  | some n => .ok (decide (0 < n))
  | none => .ok false

end Operations

/-- The dispatch `Operations[rule.operator]`: the 25 keys of the
`Operations` object; any other name yields `undefined` (`none`). `now`
is the wall clock consumed by `withinLast`. -/
def operatorFunction (now : Int) : String → Option (Value → Value → Except RuleEngineError Bool)
  | "equal" => some Operations.equal
  | "notEqual" => some Operations.notEqual
  | "greaterThan" => some Operations.greaterThan
  | "lessThan" => some Operations.lessThan
  | "greaterThanOrEqual" => some Operations.greaterThanOrEqual
  | "lessThanOrEqual" => some Operations.lessThanOrEqual
  | "in" => some Operations.inOp
  | "notIn" => some Operations.notIn
  | "contains" => some Operations.contains
  | "startsWith" => some Operations.startsWith
  | "endsWith" => some Operations.endsWith
  | "regex" => some Operations.regex
  | "between" => some Operations.between
  | "size" => some Operations.size
  | "smaller" => some Operations.smaller
  | "bigger" => some Operations.bigger
  | "withinLast" => some (Operations.withinLast now)
  | "before" => some Operations.before
  | "after" => some Operations.after
  | "exists" => some Operations.existsOp
  | "notExists" => some Operations.notExists
  | "containsSubstring" => some Operations.containsSubstring
  | "matches" => some Operations.matchesOp
  | "isEmpty" => some Operations.isEmpty
  | "isNotEmpty" => some Operations.isNotEmpty
  | _ => none

/-- A rule-tree node as the engine sees it at runtime: a record whose
`fact`, `operator`, `value`, `all` and `any` keys may each be present or
absent. The evaluator dispatches by probing key presence, so the grammar
variants (Atomic, All, Any, Combined) are not separate constructors. -/
inductive RuleNode where
  | mk (fact : Option String) (operator : Option String) (value : Option Value)
       (all : Option (List RuleNode)) (any : Option (List RuleNode))

/-- The `fact` key of a node. -/
def RuleNode.fact : RuleNode → Option String
  | .mk f _ _ _ _ => f

/-- The `operator` key of a node. -/
def RuleNode.operator : RuleNode → Option String
  | .mk _ o _ _ _ => o

/-- The `value` key of a node. -/
def RuleNode.value : RuleNode → Option Value
  | .mk _ _ v _ _ => v

/-- The `all` key of a node. -/
def RuleNode.all : RuleNode → Option (List RuleNode)
  | .mk _ _ _ a _ => a

/-- The `any` key of a node. -/
def RuleNode.any : RuleNode → Option (List RuleNode)
  | .mk _ _ _ _ a => a

/-- One record of the evaluation history: the visited node and its
boolean outcome (`Models/Result.ts`, `RuleResult`). -/
structure RuleResult where
  rule : RuleNode
  result : Bool

/-- A context: a flat mapping from fact name to value. -/
abbrev Context := List (String × Value)

/-- The two private instance fields of the `RuleEngine` class: the
current context and the accumulated history. -/
structure EngineState where
  context : Context
  history : List RuleResult

/-- The `this.history.push(r)`: append one record at the end. -/
def EngineState.pushHistory (s : EngineState) (r : RuleResult) : EngineState :=
  { s with history := s.history ++ [r] }

/-- The `this.context[rule.fact]`: a missing fact resolves to `undefined`. -/
def lookupFact (ctx : Context) (f : String) : Value :=
  match ctx.find? (fun p => p.1 == f) with
  | some p => p.2
  | none => .undefined

/-- The `evaluateRule`: evaluate an atomic rule. The operator name is looked
up in `Operations`; an unknown (or absent) name raises
`InvalidOperator`; otherwise the predicate runs on
`(context[fact], value)` and one record is pushed. An absent `operator`
key reads as the property name `"undefined"`, an absent `value` key as
the value `undefined`. -/
def evaluateRule (now : Int) (s : EngineState) (rule : RuleNode) :
    Except RuleEngineError (Bool × EngineState) :=
  let factValue := lookupFact s.context (rule.fact.getD "undefined")
  let ruleValue := rule.value.getD .undefined
  match operatorFunction now (rule.operator.getD "undefined") with
  | none => .error (.invalidOperator (rule.operator.getD "undefined"))
  | some opFn => do
      let result ← opFn factValue ruleValue
      .ok (result, s.pushHistory ⟨rule, result⟩)

mutual

/-- The `evaluate`: dispatch on key presence — `fact` first (atomic), then
`all` together with `any` (combined), then `all`, then `any`; a node
with none of the three keys raises `InvalidRuleStructure`. The bodies of
`evaluateAll`, `evaluateAny` and `evaluateCombined` are inlined in the
corresponding branches so that the recursion is structural; the source
functions are recovered below as the wrappers `evaluateAll`,
`evaluateAny` and `evaluateCombined`, proved equal to these branches. -/
def evaluate (now : Int) (s : EngineState) (rule : RuleNode) :
    Except RuleEngineError (Bool × EngineState) :=
  match rule with
  | .mk (some f) o v a b => evaluateRule now s (.mk (some f) o v a b)
  | .mk none o v (some al) (some an) => do
      let (allResult, s₁) ← everyEvaluate now s al
      let s₂ := s₁.pushHistory ⟨.mk none none none (some al) none, allResult⟩
      let (anyResult, s₃) ← forEvaluate now s₂ an false
      let s₄ := s₃.pushHistory ⟨.mk none none none none (some an), anyResult⟩
      let result := allResult && anyResult
      .ok (result, s₄.pushHistory ⟨.mk none o v (some al) (some an), result⟩)
  | .mk none o v (some al) none => do
      let (result, s₁) ← everyEvaluate now s al
      .ok (result, s₁.pushHistory ⟨.mk none o v (some al) none, result⟩)
  | .mk none o v none (some an) => do
      let (result, s₁) ← forEvaluate now s an false
      .ok (result, s₁.pushHistory ⟨.mk none o v none (some an), result⟩)
  | .mk none _ _ none none => .error .invalidRuleStructure
termination_by structural rule

/-- The `Array.prototype.every` traversal of `evaluateAll`: children are
evaluated left to right and the walk ends at the first false child. -/
def everyEvaluate (now : Int) (s : EngineState) (children : List RuleNode) :
    Except RuleEngineError (Bool × EngineState) :=
  match children with
  | [] => .ok (true, s)
  | r :: rs => do
      let (b, s₁) ← evaluate now s r
      if b then everyEvaluate now s₁ rs else .ok (false, s₁)
termination_by structural children

/-- The `for (const rule of rules.any)` loop of `evaluateAny`: every
child is evaluated, the flag starts at `acc = false` and is set by any
true child. -/
def forEvaluate (now : Int) (s : EngineState) (children : List RuleNode) (acc : Bool) :
    Except RuleEngineError (Bool × EngineState) :=
  match children with
  | [] => .ok (acc, s)
  | r :: rs => do
      let (b, s₁) ← evaluate now s r
      forEvaluate now s₁ rs (acc || b)
termination_by structural children

end

/-- The `evaluateAll`: `rules.all.every((rule) => this.evaluate(rule))`, then
push the aggregate record for the passed node. -/
def evaluateAll (now : Int) (s : EngineState) (node : RuleNode) (children : List RuleNode) :
    Except RuleEngineError (Bool × EngineState) := do
  let (result, s₁) ← everyEvaluate now s children
  .ok (result, s₁.pushHistory ⟨node, result⟩)

/-- The `evaluateAny`: the non-short-circuiting loop, then push the
aggregate record for the passed node. -/
def evaluateAny (now : Int) (s : EngineState) (node : RuleNode) (children : List RuleNode) :
    Except RuleEngineError (Bool × EngineState) := do
  let (result, s₁) ← forEvaluate now s children false
  .ok (result, s₁.pushHistory ⟨node, result⟩)

/-- The `evaluateCombined`: evaluate `{all: rules.all}` as an All node, then
`{any: rules.any}` as an Any node, and push one record for the combined
node whose result is the conjunction. -/
def evaluateCombined (now : Int) (s : EngineState) (node : RuleNode)
    (allChildren anyChildren : List RuleNode) :
    Except RuleEngineError (Bool × EngineState) := do
  let (allResult, s₁) ← evaluateAll now s (.mk none none none (some allChildren) none) allChildren
  let (anyResult, s₂) ← evaluateAny now s₁ (.mk none none none none (some anyChildren)) anyChildren
  let result := allResult && anyResult
  .ok (result, s₂.pushHistory ⟨node, result⟩)

/-- The plain-All branch of `evaluate` is `evaluateAll` applied to the
node and its children. -/
lemma evaluate_all_branch (now : Int) (s : EngineState) (o : Option String)
    (v : Option Value) (al : List RuleNode) :
    evaluate now s (.mk none o v (some al) none) =
      evaluateAll now s (.mk none o v (some al) none) al := rfl

/-- The plain-Any branch of `evaluate` is `evaluateAny` applied to the
node and its children. -/
lemma evaluate_any_branch (now : Int) (s : EngineState) (o : Option String)
    (v : Option Value) (an : List RuleNode) :
    evaluate now s (.mk none o v none (some an)) =
      evaluateAny now s (.mk none o v none (some an)) an := rfl

/-- The combined branch of `evaluate` is `evaluateCombined` applied to
the node and the two child groups. -/
lemma evaluate_combined_branch (now : Int) (s : EngineState) (o : Option String)
    (v : Option Value) (al an : List RuleNode) :
    evaluate now s (.mk none o v (some al) (some an)) =
      evaluateCombined now s (.mk none o v (some al) (some an)) al an := by
  unfold evaluateCombined evaluateAll evaluateAny
  cases h₁ : everyEvaluate now s al with
  | error e => simp [evaluate, h₁, Bind.bind, Except.bind]
  | ok p =>
    obtain ⟨allResult, s₁⟩ := p
    cases h₂ : forEvaluate now (s₁.pushHistory ⟨.mk none none none (some al) none, allResult⟩) an false with
    | error e => simp [evaluate, h₁, h₂, Bind.bind, Except.bind]
    | ok q => simp [evaluate, h₁, h₂, Bind.bind, Except.bind]

/-- The `Array.isArray`. -/
def isArrayValue : Value → Bool
  | .arr _ => true
  | _ => false

/-- The `typeof x === "string"`. -/
def isStringValue : Value → Bool
  | .str _ => true
  | _ => false

/-- The `Array.isArray(ruleValue) && ruleValue.length === 2`, the guard of
the `between` operator. -/
def isTwoElementArray : Value → Bool
  | .arr l => l.length == 2
  | _ => false

/-- The same-recognized-type guard of the shared comparator: both
numbers, both strings, or both dates. -/
def sameComparableType : Value → Value → Bool
  | .num _, .num _ => true
  | .str _, .str _ => true
  | .date _, .date _ => true
  | _, _ => false

/-- The comparator only ever raises `UnsupportedType`. -/
lemma compare_error_eq {a b : Value} {e : RuleEngineError}
    (h : compare a b = .error e) : e = .unsupportedContextType := by
  cases a <;> cases b <;> simp [compare] at h <;> simp [h]

/-- An ordering operator (comparator bind followed by a pure boolean)
only ever raises `UnsupportedType`. -/
lemma ordering_op_error_eq {a b : Value} {e : RuleEngineError} (p : Int → Bool)
    (h : (do let c ← compare a b; Except.ok (p c)) = Except.error e) :
    e = .unsupportedContextType := by
  cases hc : compare a b with
  | ok c => rw [hc] at h; simp [Bind.bind, Except.bind] at h
  | error e₂ =>
      rw [hc] at h
      simp [Bind.bind, Except.bind] at h
      exact h ▸ compare_error_eq hc

/-- The `greaterThan` only ever raises `UnsupportedType`. -/
lemma greaterThan_error_eq {a b : Value} {e : RuleEngineError}
    (h : Operations.greaterThan a b = .error e) : e = .unsupportedContextType := by
  unfold Operations.greaterThan at h
  exact ordering_op_error_eq _ h

/-- The `lessThan` only ever raises `UnsupportedType`. -/
lemma lessThan_error_eq {a b : Value} {e : RuleEngineError}
    (h : Operations.lessThan a b = .error e) : e = .unsupportedContextType := by
  unfold Operations.lessThan at h
  exact ordering_op_error_eq _ h

/-- The `greaterThanOrEqual` only ever raises `UnsupportedType`. -/
lemma greaterThanOrEqual_error_eq {a b : Value} {e : RuleEngineError}
    (h : Operations.greaterThanOrEqual a b = .error e) : e = .unsupportedContextType := by
  unfold Operations.greaterThanOrEqual at h
  exact ordering_op_error_eq _ h

/-- The `lessThanOrEqual` only ever raises `UnsupportedType`. -/
lemma lessThanOrEqual_error_eq {a b : Value} {e : RuleEngineError}
    (h : Operations.lessThanOrEqual a b = .error e) : e = .unsupportedContextType := by
  unfold Operations.lessThanOrEqual at h
  exact ordering_op_error_eq _ h

/-- The `between` only ever raises `InvalidBetweenValue` or
`UnsupportedType`. -/
lemma between_error_eq {a b : Value} {e : RuleEngineError}
    (h : Operations.between a b = .error e) :
    e = .invalidBetweenValue ∨ e = .unsupportedContextType := by
  cases b with
  | arr l =>
    rcases l with _ | ⟨lo, _ | ⟨hi, _ | ⟨z, rest⟩⟩⟩
    · simp [Operations.between] at h
      exact .inl h.symm
    · simp [Operations.between] at h
      exact .inl h.symm
    · replace h : (do
          let c₁ ← compare a lo
          if 0 ≤ c₁ then do
            let c₂ ← compare a hi
            Except.ok (decide (c₂ ≤ 0))
          else Except.ok false) = Except.error e := h
      cases hc : compare a lo with
      | error e₁ =>
          rw [hc] at h
          simp [Bind.bind, Except.bind] at h
          exact .inr (h ▸ compare_error_eq hc)
      | ok c₁ =>
          rw [hc] at h
          by_cases hpos : 0 ≤ c₁
          · cases hc₂ : compare a hi with
            | error e₂ =>
                rw [hc₂] at h
                simp [Bind.bind, Except.bind, hpos] at h
                exact .inr (h ▸ compare_error_eq hc₂)
            | ok c₂ =>
                rw [hc₂] at h
                simp [Bind.bind, Except.bind, hpos] at h
          · simp [Bind.bind, Except.bind, hpos] at h
    · simp [Operations.between] at h
      exact .inl h.symm
  | undefined => simp [Operations.between] at h; exact .inl h.symm
  | null => simp [Operations.between] at h; exact .inl h.symm
  | bool x => simp [Operations.between] at h; exact .inl h.symm
  | num x => simp [Operations.between] at h; exact .inl h.symm
  | str x => simp [Operations.between] at h; exact .inl h.symm
  | date x => simp [Operations.between] at h; exact .inl h.symm
  | obj => simp [Operations.between] at h; exact .inl h.symm

/-- The `size` only ever raises `InvalidSizeType`. -/
lemma size_error_eq {a b : Value} {e : RuleEngineError}
    (h : Operations.size a b = .error e) : e = .invalidSizeType := by
  cases hl : jsLength a with
  | none => simp [Operations.size, hl] at h; simp_all
  | some n => simp [Operations.size, hl] at h

/-- The `smaller` only ever raises `InvalidSizeType`. -/
lemma smaller_error_eq {a b : Value} {e : RuleEngineError}
    (h : Operations.smaller a b = .error e) : e = .invalidSizeType := by
  cases hl : jsLength a with
  | none => simp [Operations.smaller, hl] at h; simp_all
  | some n => simp [Operations.smaller, hl] at h

/-- The `bigger` only ever raises `InvalidSizeType`. -/
lemma bigger_error_eq {a b : Value} {e : RuleEngineError}
    (h : Operations.bigger a b = .error e) : e = .invalidSizeType := by
  cases hl : jsLength a with
  | none => simp [Operations.bigger, hl] at h; simp_all
  | some n => simp [Operations.bigger, hl] at h

/-- The `withinLast` only ever raises `UnsupportedType`. -/
lemma withinLast_error_eq {now : Int} {a b : Value} {e : RuleEngineError}
    (h : Operations.withinLast now a b = .error e) : e = .unsupportedContextType := by
  cases a <;> simp [Operations.withinLast] at h <;> simp_all

/-- The `before` only ever raises `UnsupportedType`. -/
lemma before_error_eq {a b : Value} {e : RuleEngineError}
    (h : Operations.before a b = .error e) : e = .unsupportedContextType := by
  cases a <;> simp [Operations.before] at h <;> simp_all

/-- The `after` only ever raises `UnsupportedType`. -/
lemma after_error_eq {a b : Value} {e : RuleEngineError}
    (h : Operations.after a b = .error e) : e = .unsupportedContextType := by
  cases a <;> simp [Operations.after] at h <;> simp_all

/-- Operation `regex` only ever raises the native `SyntaxError` of the
pattern compilation. -/
lemma regex_error_eq {a b : Value} {e : RuleEngineError}
    (h : Operations.regex a b = .error e) : e = .nativeSyntaxError (toJSString b) := by
  cases a <;> simp only [Operations.regex] at h <;>
    try exact absurd h (by simp)
  by_cases hv : regexSyntaxOk (toJSString b)
  · rw [if_pos hv] at h
    exact absurd h (by simp)
  · rw [if_neg hv] at h
    simp at h
    exact h.symm

/-- Operation `matches` only ever raises the native `SyntaxError` of
the pattern compilation. -/
lemma matchesOp_error_eq {a b : Value} {e : RuleEngineError}
    (h : Operations.matchesOp a b = .error e) : ∃ p, e = .nativeSyntaxError p := by
  cases a <;> cases b <;> simp only [Operations.matchesOp] at h <;>
    try exact absurd h (by simp)
  rename_i s p
  by_cases hv : regexSyntaxOk p
  · rw [if_pos hv] at h
    exact absurd h (by simp)
  · rw [if_neg hv] at h
    simp at h
    exact ⟨p, h.symm⟩

/-- Whatever operator the dispatch table returns, it never raises
`InvalidRuleStructure`. -/
lemma operatorFunction_no_structure_error {now : Int} {name : String}
    {fn : Value → Value → Except RuleEngineError Bool}
    (h : operatorFunction now name = some fn) (a b : Value) :
    fn a b ≠ .error .invalidRuleStructure := by
  intro hcontra
  unfold operatorFunction at h
  split at h
  all_goals try exact Option.noConfusion h
  all_goals injection h with h
  all_goals subst h
  all_goals first
    | exact absurd (greaterThan_error_eq hcontra) (by simp)
    | exact absurd (lessThan_error_eq hcontra) (by simp)
    | exact absurd (greaterThanOrEqual_error_eq hcontra) (by simp)
    | exact absurd (lessThanOrEqual_error_eq hcontra) (by simp)
    | exact absurd (between_error_eq hcontra) (by simp)
    | exact absurd (size_error_eq hcontra) (by simp)
    | exact absurd (smaller_error_eq hcontra) (by simp)
    | exact absurd (bigger_error_eq hcontra) (by simp)
    | exact absurd (withinLast_error_eq hcontra) (by simp)
    | exact absurd (before_error_eq hcontra) (by simp)
    | exact absurd (after_error_eq hcontra) (by simp)
    | exact absurd (regex_error_eq hcontra) (by simp)
    | (obtain ⟨p, hp⟩ := matchesOp_error_eq hcontra; exact absurd hp (by simp))
    | (cases a <;> cases b <;>
        simp [Operations.equal, Operations.notEqual, Operations.inOp, Operations.notIn,
          Operations.contains, Operations.startsWith, Operations.endsWith,
          Operations.containsSubstring, Operations.isEmpty,
          Operations.isNotEmpty, Operations.existsOp, Operations.notExists,
          jsLength] at hcontra)

/-- Pushing a record leaves the context untouched. -/
@[simp] lemma pushHistory_context (s : EngineState) (r : RuleResult) :
    (s.pushHistory r).context = s.context := rfl

/-- Pushing a record appends it at the end of the history. -/
@[simp] lemma pushHistory_history (s : EngineState) (r : RuleResult) :
    (s.pushHistory r).history = s.history ++ [r] := rfl

/-- The children `Array.prototype.every` actually visits: those up to
and including the first one whose outcome is false. -/
def takeToFirstFalse (f : RuleNode → Bool) : List RuleNode → List RuleNode
  | [] => []
  | c :: cs => if f c then c :: takeToFirstFalse f cs else [c]

/-- Per-child behavior: each child of the list evaluates without error,
independently of the history accumulated so far, to the boolean given by
`f`, appending exactly its own record. Atomic children with a known,
non-raising operator satisfy this. -/
def ChildSpec (now : Int) (ctx : Context) (f : RuleNode → Bool) (children : List RuleNode) : Prop :=
  ∀ c ∈ children, ∀ t : EngineState, t.context = ctx →
    evaluate now t c = .ok (f c, t.pushHistory ⟨c, f c⟩)

/-- A `ChildSpec` restricts to the tail of the child list. -/
lemma ChildSpec.tail {now : Int} {ctx : Context} {f : RuleNode → Bool}
    {c : RuleNode} {cs : List RuleNode} (h : ChildSpec now ctx f (c :: cs)) :
    ChildSpec now ctx f cs :=
  fun x hx => h x (List.mem_cons_of_mem c hx)

/-- The `evaluateAny` loop visits every child, in order, records one
entry per child, and computes the disjunction of the child outcomes with
the incoming flag. -/
lemma forEvaluate_spec (now : Int) (ctx : Context) (f : RuleNode → Bool) :
    ∀ (children : List RuleNode) (s : EngineState) (acc : Bool), s.context = ctx →
      ChildSpec now ctx f children →
      forEvaluate now s children acc =
        .ok (acc || children.any f,
          { s with history := s.history ++ children.map (fun c => ⟨c, f c⟩) }) := by
  intro children
  induction children with
  | nil => intro s acc hs _; simp [forEvaluate]
  | cons c cs ih =>
    intro s acc hs h
    have hc := h c (List.mem_cons_self c cs) s hs
    have hrec := ih (s.pushHistory ⟨c, f c⟩) (acc || f c) (by simp [hs]) h.tail
    calc forEvaluate now s (c :: cs) acc
        = forEvaluate now (s.pushHistory ⟨c, f c⟩) cs (acc || f c) := by
          rw [forEvaluate]; rw [hc]; rfl
      _ = _ := by
          rw [hrec]
          simp [EngineState.pushHistory, Bool.or_assoc]

/-- The `evaluateAll` traversal visits children left to right, stopping
at the first false one; it records one entry per visited child and
computes the conjunction of all child outcomes. -/
lemma everyEvaluate_spec (now : Int) (ctx : Context) (f : RuleNode → Bool) :
    ∀ (children : List RuleNode) (s : EngineState), s.context = ctx →
      ChildSpec now ctx f children →
      everyEvaluate now s children =
        .ok (children.all f,
          { s with history := s.history ++ (takeToFirstFalse f children).map (fun c => ⟨c, f c⟩) }) := by
  intro children
  induction children with
  | nil => intro s hs _; simp [everyEvaluate, takeToFirstFalse]
  | cons c cs ih =>
    intro s hs h
    have hc := h c (List.mem_cons_self c cs) s hs
    have hstep : everyEvaluate now s (c :: cs)
        = if f c then everyEvaluate now (s.pushHistory ⟨c, f c⟩) cs
          else .ok (false, s.pushHistory ⟨c, f c⟩) := by
      rw [everyEvaluate]; rw [hc]; rfl
    by_cases hf : f c
    · rw [hstep, if_pos hf, ih (s.pushHistory ⟨c, f c⟩) (by simp [hs]) h.tail]
      simp [takeToFirstFalse, hf, EngineState.pushHistory]
    · rw [hstep, if_neg hf]
      simp only [Bool.not_eq_true] at hf
      simp [takeToFirstFalse, hf, EngineState.pushHistory]

/-- The overall result handed back by `evaluateRules`
(`Models/Result.ts`, `EvaluationResult`). -/
structure EvaluationResult where
  result : Bool
  history : List RuleResult

/-- The public entry point `evaluateRules(context, rules)`: the instance
fields are overwritten (`this.context = context; this.history = []`) and
the tree is evaluated; an error propagates to the caller and no result is
returned. -/
def evaluateRules (engine : EngineState) (now : Int) (context : Context) (rules : RuleNode) :
    Except RuleEngineError EvaluationResult :=
  let s := { engine with context := context, history := [] }
  (evaluate now s rules).map (fun p => { result := p.1, history := p.2.history })

/-- An atomic evaluation never raises `InvalidRuleStructure`: an
unknown operator raises `InvalidOperator`, and a known operator raises
only its own operation errors. -/
lemma evaluateRule_no_structure_error (now : Int) (s : EngineState) (rule : RuleNode) :
    evaluateRule now s rule ≠ .error .invalidRuleStructure := by
  intro h
  unfold evaluateRule at h
  cases hop : operatorFunction now (rule.operator.getD "undefined") with
  | none => rw [hop] at h; simp at h
  | some opFn =>
      rw [hop] at h
      cases hfr : opFn (lookupFact s.context (rule.fact.getD "undefined"))
          (rule.value.getD .undefined) with
      | ok r => simp [hfr, Bind.bind, Except.bind] at h
      | error e =>
          simp [hfr, Bind.bind, Except.bind] at h
          exact operatorFunction_no_structure_error hop _ _ (by rw [hfr, h])

/-- Context `{a: 1}` for the concrete examples. -/
def ctxA : Context := [("a", Value.num 1)]

/-- Atomic rule `{fact: "a", operator: "equal", value: 1}`: true in
`ctxA`. -/
def ruleEqOne : RuleNode := .mk (some "a") (some "equal") (some (.num 1)) none none

/-- Atomic rule `{fact: "a", operator: "equal", value: 2}`: false in
`ctxA`. -/
def ruleEqTwo : RuleNode := .mk (some "a") (some "equal") (some (.num 2)) none none

/-- The outcome of the concrete atomic rules in `ctxA`: true exactly on
rule value 1. -/
def outcomeA : RuleNode → Bool := fun c =>
  match c.value with
  | some (.num 1) => true
  | _ => false

/-- Lists built from the two concrete atomic rules satisfy `ChildSpec`
in `ctxA` with outcomes given by `outcomeA`. -/
lemma childSpec_A (now : Int) (children : List RuleNode)
    (hch : ∀ c ∈ children, c = ruleEqOne ∨ c = ruleEqTwo) :
    ChildSpec now ctxA outcomeA children := by
  intro c hc t ht
  obtain ⟨tc, th⟩ := t
  change tc = ctxA at ht
  subst ht
  rcases hch c hc with rfl | rfl <;> rfl

/-- C1, amended: for an Any node every child is evaluated and recorded
— even once the aggregate outcome is determined — contributing one
record per child plus the aggregate record; for an All node,
`Array.prototype.every` stops at the first false child, so the child
records are exactly those up to and including the first false one
(followed by the aggregate record): an All node with `n` atomic
children contributes `n + 1` records only when no child except possibly
the last is false. -/
theorem C1_trace_policy (now : Int) (ctx : Context) (f : RuleNode → Bool)
    (children : List RuleNode) (s : EngineState) (o : Option String) (v : Option Value)
    (hs : s.context = ctx) (h : ChildSpec now ctx f children) :
    evaluate now s (.mk none o v none (some children)) =
      .ok (children.any f,
        { s with history := s.history ++ children.map (fun c => ⟨c, f c⟩)
            ++ [⟨.mk none o v none (some children), children.any f⟩] })
    ∧ evaluate now s (.mk none o v (some children) none) =
      .ok (children.all f,
        { s with history := s.history
            ++ (takeToFirstFalse f children).map (fun c => ⟨c, f c⟩)
            ++ [⟨.mk none o v (some children) none, children.all f⟩] }) := by
  constructor
  · show (do
        let (result, s₁) ← forEvaluate now s children false
        Except.ok (result, s₁.pushHistory ⟨.mk none o v none (some children), result⟩)) = _
    rw [forEvaluate_spec now ctx f children s false hs h]
    simp [Bind.bind, Except.bind, EngineState.pushHistory, List.append_assoc]
  · show (do
        let (result, s₁) ← everyEvaluate now s children
        Except.ok (result, s₁.pushHistory ⟨.mk none o v (some children) none, result⟩)) = _
    rw [everyEvaluate_spec now ctx f children s hs h]
    simp [Bind.bind, Except.bind, EngineState.pushHistory, List.append_assoc]

/-- C1, counterexample to the claim as stated: an All node with two
atomic children whose first child evaluates to false records only 2
entries (the first child and the aggregate), not the `n + 1 = 3` the
claim demands for every All node. -/
theorem C1_counterexample :
    (evaluateRules ⟨[], []⟩ 0 ctxA
        (.mk none none none (some [ruleEqTwo, ruleEqOne]) none)).map
      (fun r => (r.result, r.history.length)) = .ok (false, 2) := rfl

/-- Witness for C1 at concrete nodes: the Any node over
`[a = 2, a = 1]` in `{a: 1}` records both children and its aggregate;
the All node over the same children stops after the false first child. -/
theorem C1_trace_policy_witness :
    evaluate 0 ⟨ctxA, []⟩ (.mk none none none none (some [ruleEqTwo, ruleEqOne])) =
      .ok (true, ⟨ctxA, [⟨ruleEqTwo, false⟩, ⟨ruleEqOne, true⟩,
        ⟨.mk none none none none (some [ruleEqTwo, ruleEqOne]), true⟩]⟩)
    ∧ evaluate 0 ⟨ctxA, []⟩ (.mk none none none (some [ruleEqTwo, ruleEqOne]) none) =
      .ok (false, ⟨ctxA, [⟨ruleEqTwo, false⟩,
        ⟨.mk none none none (some [ruleEqTwo, ruleEqOne]) none, false⟩]⟩) := by
  have hch : ∀ c ∈ [ruleEqTwo, ruleEqOne], c = ruleEqOne ∨ c = ruleEqTwo := by
    intro c hc
    simp only [List.mem_cons, List.mem_singleton, List.not_mem_nil, or_false] at hc
    rcases hc with rfl | rfl
    · exact .inr rfl
    · exact .inl rfl
  have h := C1_trace_policy 0 ctxA outcomeA [ruleEqTwo, ruleEqOne] ⟨ctxA, []⟩ none none rfl
    (childSpec_A 0 _ hch)
  exact ⟨h.1, h.2⟩

/-- C2: a Combined node evaluates the All-group first (child records,
then one All aggregate record carrying the fresh `{all}` node), then
the Any-group (child records, then one Any aggregate record carrying
the fresh `{any}` node), and finally appends exactly one record for the
Combined node itself whose result is the conjunction of the All-group
and Any-group results. -/
theorem C2_combined_trace (now : Int) (ctx : Context) (f : RuleNode → Bool)
    (allC anyC : List RuleNode) (s : EngineState) (o : Option String) (v : Option Value)
    (hs : s.context = ctx) (hAll : ChildSpec now ctx f allC) (hAny : ChildSpec now ctx f anyC) :
    evaluate now s (.mk none o v (some allC) (some anyC)) =
      .ok (allC.all f && anyC.any f,
        { s with history := s.history
            ++ (takeToFirstFalse f allC).map (fun c => ⟨c, f c⟩)
            ++ [⟨.mk none none none (some allC) none, allC.all f⟩]
            ++ anyC.map (fun c => ⟨c, f c⟩)
            ++ [⟨.mk none none none none (some anyC), anyC.any f⟩]
            ++ [⟨.mk none o v (some allC) (some anyC), allC.all f && anyC.any f⟩] }) := by
  show (do
      let (allResult, s₁) ← everyEvaluate now s allC
      let s₂ := s₁.pushHistory ⟨.mk none none none (some allC) none, allResult⟩
      let (anyResult, s₃) ← forEvaluate now s₂ anyC false
      let s₄ := s₃.pushHistory ⟨.mk none none none none (some anyC), anyResult⟩
      let result := allResult && anyResult
      Except.ok (result, s₄.pushHistory ⟨.mk none o v (some allC) (some anyC), result⟩)) = _
  rw [everyEvaluate_spec now ctx f allC s hs hAll]
  simp only [Bind.bind, Except.bind]
  rw [forEvaluate_spec now ctx f anyC _ false (by simp [hs]) hAny]
  simp [Bind.bind, Except.bind, EngineState.pushHistory, List.append_assoc]

/-- Witness for C2 at a concrete Combined node: All-group `[a = 1]` and
Any-group `[a = 2, a = 1]` in `{a: 1}` produce the six records in group
order with the conjunction recorded last. -/
theorem C2_combined_trace_witness :
    evaluate 0 ⟨ctxA, []⟩
        (.mk none none none (some [ruleEqOne]) (some [ruleEqTwo, ruleEqOne])) =
      .ok (true, ⟨ctxA, [⟨ruleEqOne, true⟩,
        ⟨.mk none none none (some [ruleEqOne]) none, true⟩,
        ⟨ruleEqTwo, false⟩, ⟨ruleEqOne, true⟩,
        ⟨.mk none none none none (some [ruleEqTwo, ruleEqOne]), true⟩,
        ⟨.mk none none none (some [ruleEqOne]) (some [ruleEqTwo, ruleEqOne]), true⟩]⟩) := by
  have hch₁ : ∀ c ∈ [ruleEqOne], c = ruleEqOne ∨ c = ruleEqTwo := by
    intro c hc
    simp only [List.mem_singleton] at hc
    exact .inl hc
  have hch₂ : ∀ c ∈ [ruleEqTwo, ruleEqOne], c = ruleEqOne ∨ c = ruleEqTwo := by
    intro c hc
    simp only [List.mem_cons, List.mem_singleton, List.not_mem_nil, or_false] at hc
    rcases hc with rfl | rfl
    · exact .inr rfl
    · exact .inl rfl
  have h := C2_combined_trace 0 ctxA outcomeA [ruleEqOne] [ruleEqTwo, ruleEqOne]
    ⟨ctxA, []⟩ none none rfl (childSpec_A 0 _ hch₁) (childSpec_A 0 _ hch₂)
  exact h

/-- Context `{d: Date(0)}` for the clock-dependence example. -/
def ctxD : Context := [("d", Value.date 0)]

/-- Atomic rule `{fact: "d", operator: "withinLast", value: 5}`. -/
def ruleWithin : RuleNode := .mk (some "d") (some "withinLast") (some (.num 5)) none none

/-- C3, amended: the outcome of `evaluateRules` is independent of the
engine instance state — both instance fields are overwritten at call
entry — so two calls on the same `(context, rules)` pair that observe
the same clock reading yield identical result and history, whether they
go through fresh instances or reuse one; calls observing different
clock readings may differ on `withinLast` rules. -/
theorem C3_state_independence (e₁ e₂ : EngineState) (now : Int) (ctx : Context)
    (rules : RuleNode) :
    evaluateRules e₁ now ctx rules = evaluateRules e₂ now ctx rules := by
  cases e₁; cases e₂; rfl

/-- C3, counterexample: the same `(context, rules)` pair evaluated at
clock reading 3 yields true but at clock reading 10 yields false,
because `withinLast` reads the wall clock through `new Date()`; so the
claim that any two calls with the same pair agree is false. -/
theorem C3_counterexample :
    (evaluateRules ⟨[], []⟩ 3 ctxD ruleWithin).map (fun r => r.result) = .ok true
    ∧ (evaluateRules ⟨[], []⟩ 10 ctxD ruleWithin).map (fun r => r.result) = .ok false :=
  ⟨rfl, rfl⟩

/-- C7: a rule node with none of the keys `fact`, `all`, `any` — whatever
other keys it carries — makes `evaluateRules` raise
`InvalidRuleStructure`, whatever the context and engine state. -/
theorem C7_invalid_structure (e : EngineState) (now : Int) (ctx : Context)
    (o : Option String) (v : Option Value) :
    evaluateRules e now ctx (.mk none o v none none) = .error .invalidRuleStructure := by
  cases e; rfl

/-- C9: an All node with an empty child list evaluates to true and an
Any node with an empty child list to false, each contributing exactly
its own aggregate record; a Combined node with both groups empty
evaluates to false. -/
theorem C9_empty_groups (e : EngineState) (now : Int) (ctx : Context)
    (o : Option String) (v : Option Value) :
    evaluateRules e now ctx (.mk none o v (some []) none) =
      .ok ⟨true, [⟨.mk none o v (some []) none, true⟩]⟩
    ∧ evaluateRules e now ctx (.mk none o v none (some [])) =
      .ok ⟨false, [⟨.mk none o v none (some []), false⟩]⟩
    ∧ (evaluateRules e now ctx (.mk none o v (some []) (some []))).map (fun r => r.result) =
      .ok false := by
  cases e; exact ⟨rfl, rfl, rfl⟩

/-- C10: a node carrying `fact` together with `all` or `any` keys is
dispatched as an atomic rule — the `fact` probe comes first — and such a
node never raises `InvalidRuleStructure`. -/
theorem C10_fact_precedence (now : Int) (s : EngineState) (fct : String)
    (o : Option String) (v : Option Value) (al an : Option (List RuleNode)) :
    evaluate now s (.mk (some fct) o v al an) = evaluateRule now s (.mk (some fct) o v al an)
    ∧ ∀ err, evaluate now s (.mk (some fct) o v al an) = .error err →
        err ≠ .invalidRuleStructure := by
  refine ⟨rfl, ?_⟩
  intro err herr hcontra
  subst hcontra
  exact evaluateRule_no_structure_error now s _ herr

/-- Witness for C10 at a concrete node carrying both `fact` and `all`:
its evaluation raises `InvalidOperator` (the operator key is missing),
which indeed differs from `InvalidRuleStructure`. -/
theorem C10_fact_precedence_witness :
    RuleEngineError.invalidOperator "undefined" ≠ RuleEngineError.invalidRuleStructure ∧
    evaluate 0 ⟨[], []⟩ (.mk (some "x") none none (some []) none) =
      evaluateRule 0 ⟨[], []⟩ (.mk (some "x") none none (some []) none) := by
  refine ⟨?_, (C10_fact_precedence 0 ⟨[], []⟩ "x" none none (some []) none).1⟩
  exact (C10_fact_precedence 0 ⟨[], []⟩ "x" none none (some []) none).2 _ rfl

/-- The length-two branch of `between`, spelled out. -/
lemma between_pair_eq (f x y : Value) :
    Operations.between f (.arr [x, y]) = (do
      let c₁ ← compare f x
      if 0 ≤ c₁ then do
        let c₂ ← compare f y
        Except.ok (decide (c₂ ≤ 0))
      else Except.ok false) := rfl

/-- C4: `between` raises `InvalidBetweenValue` exactly when the rule
value is not a two-element array; on a two-element array `[lo, hi]` it
returns true exactly when the shared comparator puts the fact at or
above `lo` and at or below `hi` (closed interval). -/
theorem C4_between (f r lo hi : Value) :
    (Operations.between f r = .error .invalidBetweenValue ↔ isTwoElementArray r = false)
    ∧ (Operations.between f (.arr [lo, hi]) = .ok true ↔
        (∃ c₁, compare f lo = .ok c₁ ∧ 0 ≤ c₁) ∧ (∃ c₂, compare f hi = .ok c₂ ∧ c₂ ≤ 0)) := by
  constructor
  · cases r with
    | arr l =>
      rcases l with _ | ⟨x, _ | ⟨y, _ | ⟨z, rest⟩⟩⟩
      · simp [Operations.between, isTwoElementArray]
      · simp [Operations.between, isTwoElementArray]
      · rw [between_pair_eq]
        simp only [isTwoElementArray, List.length_cons, List.length_nil]
        norm_num
        cases hc₁ : compare f x with
        | error e₁ =>
            have := compare_error_eq hc₁
            simp [Bind.bind, Except.bind, this]
        | ok c₁ =>
            by_cases hpos : 0 ≤ c₁
            · cases hc₂ : compare f y with
              | error e₂ =>
                  have := compare_error_eq hc₂
                  simp [Bind.bind, Except.bind, hpos, this]
              | ok c₂ => simp [Bind.bind, Except.bind, hpos]
            · simp [Bind.bind, Except.bind, hpos]
      · simp [Operations.between, isTwoElementArray]
    | undefined => simp [Operations.between, isTwoElementArray]
    | null => simp [Operations.between, isTwoElementArray]
    | bool x => simp [Operations.between, isTwoElementArray]
    | num x => simp [Operations.between, isTwoElementArray]
    | str x => simp [Operations.between, isTwoElementArray]
    | date x => simp [Operations.between, isTwoElementArray]
    | obj => simp [Operations.between, isTwoElementArray]
  · rw [between_pair_eq]
    cases hc₁ : compare f lo with
    | error e₁ => simp [Bind.bind, Except.bind]
    | ok c₁ =>
        by_cases hpos : 0 ≤ c₁
        · cases hc₂ : compare f hi with
          | error e₂ => simp [Bind.bind, Except.bind, hpos]
          | ok c₂ => simp [Bind.bind, Except.bind, hpos]
        · simp [Bind.bind, Except.bind, hpos]

/-- C5: the shared comparator orders two numbers, two strings, or two
dates with the standard negative/zero/positive sign convention, and
raises `UnsupportedType` on every other combination of operands;
consequently the four ordering operators raise `UnsupportedType` on
such pairs. -/
theorem C5_comparator (a b : Value) (x y : Int) (u w : String) :
    (∃ c, compare (.num x) (.num y) = .ok c ∧
      ((c < 0 ↔ x < y) ∧ (c = 0 ↔ x = y) ∧ (0 < c ↔ y < x)))
    ∧ (∃ c, compare (.str u) (.str w) = .ok c ∧
      ((c < 0 ↔ u < w) ∧ (c = 0 ↔ u = w) ∧ (0 < c ↔ w < u)))
    ∧ (∃ c, compare (.date x) (.date y) = .ok c ∧
      ((c < 0 ↔ x < y) ∧ (c = 0 ↔ x = y) ∧ (0 < c ↔ y < x)))
    ∧ (sameComparableType a b = false →
        compare a b = .error .unsupportedContextType
        ∧ Operations.greaterThan a b = .error .unsupportedContextType
        ∧ Operations.lessThan a b = .error .unsupportedContextType
        ∧ Operations.greaterThanOrEqual a b = .error .unsupportedContextType
        ∧ Operations.lessThanOrEqual a b = .error .unsupportedContextType) := by
  refine ⟨⟨x - y, rfl, by omega, by omega, by omega⟩, ?_,
    ⟨x - y, rfl, by omega, by omega, by omega⟩, ?_⟩
  · refine ⟨localeCompare u w, rfl, ?_⟩
    unfold localeCompare
    rcases lt_trichotomy u w with hlt | heq | hgt
    · have hne : u ≠ w := ne_of_lt hlt
      have hnlt : ¬ w < u := lt_asymm hlt
      rw [if_pos hlt]
      norm_num [hlt, hne, hnlt]
    · subst heq
      rw [if_neg (lt_irrefl u), if_pos rfl]
      norm_num [lt_irrefl u]
    · have hne : u ≠ w := (ne_of_lt hgt).symm
      have hnlt : ¬ u < w := lt_asymm hgt
      rw [if_neg hnlt, if_neg hne]
      norm_num [hgt, hne, hnlt]
  · intro hmis
    have hcmp : compare a b = .error .unsupportedContextType := by
      cases a <;> cases b <;> first | rfl | simp [sameComparableType] at hmis
    refine ⟨hcmp, ?_, ?_, ?_, ?_⟩ <;>
      simp [Operations.greaterThan, Operations.lessThan, Operations.greaterThanOrEqual,
        Operations.lessThanOrEqual, hcmp, Bind.bind, Except.bind]

/-- Witness for C5 at the mismatched pair `(1, "a")`: the comparator and
`greaterThan` raise `UnsupportedType` there. -/
theorem C5_comparator_witness :
    compare (.num 1) (.str "a") = .error .unsupportedContextType ∧
    Operations.greaterThan (.num 1) (.str "a") = .error .unsupportedContextType := by
  have h := (C5_comparator (.num 1) (.str "a") 0 0 "" "").2.2.2 rfl
  exact ⟨h.1, h.2.1⟩

/-- C6: `size`, `smaller` and `bigger` raise `InvalidSizeType` exactly
on facts that are neither strings nor arrays; on a sized fact of length
`n`, `size` holds exactly when the rule value is the number `n`, and
against a numeric rule value `m`, `smaller` holds exactly when `n < m`
and `bigger` exactly when `n > m`. -/
theorem C6_size_family (f r : Value) (n : Nat) (m : Int) :
    (jsLength f = none →
      Operations.size f r = .error .invalidSizeType
      ∧ Operations.smaller f r = .error .invalidSizeType
      ∧ Operations.bigger f r = .error .invalidSizeType)
    ∧ (jsLength f = some n →
      (Operations.size f r = .ok true ↔ r = .num n)
      ∧ Operations.smaller f (.num m) = .ok (decide ((n : Int) < m))
      ∧ Operations.bigger f (.num m) = .ok (decide (m < (n : Int)))) := by
  constructor
  · intro hl
    exact ⟨by simp [Operations.size, hl], by simp [Operations.smaller, hl],
      by simp [Operations.bigger, hl]⟩
  · intro hl
    refine ⟨?_, ?_, ?_⟩
    · simp only [Operations.size, hl]
      cases r <;> first
        | (simp [jsStrictEq]; exact eq_comm)
        | simp [jsStrictEq]
    · simp [Operations.smaller, hl, jsLtNum, toNumber]
    · simp [Operations.bigger, hl, jsGtNum, toNumber]

/-- Witness for C6: a numeric fact raises `InvalidSizeType`; the
two-character string fact has size 2, is smaller than 3 and not bigger
than 3. -/
theorem C6_size_family_witness :
    Operations.size (.num 5) (.num 0) = .error .invalidSizeType
    ∧ Operations.size (.str "hi") (.num 2) = .ok true
    ∧ Operations.smaller (.str "hi") (.num 3) = .ok true
    ∧ Operations.bigger (.str "hi") (.num 3) = .ok false := by
  refine ⟨((C6_size_family (.num 5) (.num 0) 0 0).1 rfl).1, ?_, ?_, ?_⟩
  · exact ((C6_size_family (.str "hi") (.num 2) 2 0).2 rfl).1.mpr rfl
  · exact (((C6_size_family (.str "hi") (.num 3) 2 3).2 rfl).2.1).trans (by rfl)
  · exact (((C6_size_family (.str "hi") (.num 3) 2 3).2 rfl).2.2).trans (by rfl)

/-- C8, counterexample to the claim as stated: with a string fact, the
`regex` and `matches` operators compile the pattern, and the malformed
pattern `"("` makes `new RegExp` throw the JS-native `SyntaxError` — an
error outside the engine taxonomy — so these two operators can raise. -/
theorem C8_counterexample :
    Operations.regex (.str "x") (.str "(") = .error (.nativeSyntaxError "(")
    ∧ Operations.matchesOp (.str "x") (.str "(") = .error (.nativeSyntaxError "(") :=
  ⟨rfl, rfl⟩

/-- C8, amended: `in`, `notIn`, `contains`, `startsWith`, `endsWith`,
`containsSubstring`, `isEmpty` and `isNotEmpty` never raise, and every
shape mismatch — a non-array rule value for `in`/`notIn`, a non-array
fact for `contains`, a non-string fact for the string and
regular-expression operators, a non-string rule value for
`matches`/`containsSubstring`, a fact that is neither string nor array
for `isEmpty`/`isNotEmpty` — returns false rather than raising (in
particular `regex`/`matches` never compile the pattern on a mismatched
fact); `regex` and `matches` also never raise when the pattern string
compiles, but on a string fact with a malformed pattern the `RegExp`
compilation throws the native `SyntaxError`. -/
theorem C8_error_policy (f r : Value) (s p : String) :
    ((∃ b, Operations.inOp f r = .ok b) ∧ (∃ b, Operations.notIn f r = .ok b)
      ∧ (∃ b, Operations.contains f r = .ok b) ∧ (∃ b, Operations.startsWith f r = .ok b)
      ∧ (∃ b, Operations.endsWith f r = .ok b)
      ∧ (∃ b, Operations.containsSubstring f r = .ok b)
      ∧ (∃ b, Operations.isEmpty f r = .ok b) ∧ (∃ b, Operations.isNotEmpty f r = .ok b))
    ∧ (isArrayValue r = false →
        Operations.inOp f r = .ok false ∧ Operations.notIn f r = .ok false)
    ∧ (isArrayValue f = false → Operations.contains f r = .ok false)
    ∧ (isStringValue f = false →
        Operations.startsWith f r = .ok false ∧ Operations.endsWith f r = .ok false
        ∧ Operations.regex f r = .ok false ∧ Operations.matchesOp f r = .ok false
        ∧ Operations.containsSubstring f r = .ok false)
    ∧ (isStringValue r = false →
        Operations.matchesOp f r = .ok false ∧ Operations.containsSubstring f r = .ok false)
    ∧ (isStringValue f = false → isArrayValue f = false →
        Operations.isEmpty f r = .ok false ∧ Operations.isNotEmpty f r = .ok false)
    ∧ (regexSyntaxOk (toJSString r) = true →
        (∃ b, Operations.regex f r = .ok b) ∧ (∃ b, Operations.matchesOp f r = .ok b))
    ∧ (regexSyntaxOk p = false →
        Operations.regex (.str s) (.str p) = .error (.nativeSyntaxError p)
        ∧ Operations.matchesOp (.str s) (.str p) = .error (.nativeSyntaxError p)) := by
  refine ⟨⟨?_, ?_, ?_, ?_, ?_, ?_, ?_, ?_⟩, ?_, ?_, ?_, ?_, ?_, ?_, ?_⟩
  · cases r <;> exact ⟨_, rfl⟩
  · cases r <;> exact ⟨_, rfl⟩
  · cases f <;> exact ⟨_, rfl⟩
  · cases f <;> exact ⟨_, rfl⟩
  · cases f <;> exact ⟨_, rfl⟩
  · cases f <;> cases r <;> exact ⟨_, rfl⟩
  · cases f <;> exact ⟨_, rfl⟩
  · cases f <;> exact ⟨_, rfl⟩
  · intro hr
    cases r <;> simp [isArrayValue] at hr ⊢ <;> exact ⟨rfl, rfl⟩
  · intro hf
    cases f <;> simp [isArrayValue] at hf ⊢ <;> rfl
  · intro hf
    cases f <;> simp [isStringValue] at hf ⊢ <;>
      exact ⟨rfl, rfl, rfl, by cases r <;> rfl, by cases r <;> rfl⟩
  · intro hr
    cases r <;> simp [isStringValue] at hr ⊢ <;>
      exact ⟨by cases f <;> rfl, by cases f <;> rfl⟩
  · intro hf₁ hf₂
    cases f <;> simp [isStringValue, isArrayValue] at hf₁ hf₂ ⊢ <;> exact ⟨rfl, rfl⟩
  · intro hv
    constructor
    · cases f <;> try exact ⟨false, rfl⟩
      rename_i fs
      exact ⟨regexTest (toJSString r) fs, by simp [Operations.regex, hv]⟩
    · cases f <;> try exact ⟨false, rfl⟩
      cases r <;> try exact ⟨false, rfl⟩
      rename_i fs rp
      have hv₂ : regexSyntaxOk rp = true := hv
      exact ⟨regexTest rp fs, by simp [Operations.matchesOp, hv₂]⟩
  · intro hv
    constructor
    · simp [Operations.regex, toJSString, hv]
    · simp [Operations.matchesOp, hv]

/-- Witness for C8 at concrete operands: shape mismatches return false,
a compilable pattern gives a boolean, and the malformed pattern `"("`
raises the native `SyntaxError` through both operators. -/
theorem C8_error_policy_witness :
    Operations.inOp (.num 1) (.num 2) = .ok false
    ∧ Operations.contains (.num 1) (.num 2) = .ok false
    ∧ Operations.startsWith (.num 1) (.num 2) = .ok false
    ∧ Operations.isEmpty (.num 1) (.num 2) = .ok false
    ∧ (∃ b, Operations.regex (.str "x") (.str "y") = .ok b)
    ∧ Operations.regex (.str "x") (.str "(") = .error (.nativeSyntaxError "(")
    ∧ Operations.matchesOp (.str "x") (.str "(") = .error (.nativeSyntaxError "(") := by
  have h₁ := C8_error_policy (.num 1) (.num 2) "x" "("
  have h₂ := C8_error_policy (.str "x") (.str "y") "x" "("
  refine ⟨(h₁.2.1 rfl).1, h₁.2.2.1 rfl, (h₁.2.2.2.1 rfl).1,
    (h₁.2.2.2.2.2.1 rfl rfl).1, (h₂.2.2.2.2.2.2.1 rfl).1, ?_, ?_⟩
  · exact (h₂.2.2.2.2.2.2.2 rfl).1
  · exact (h₂.2.2.2.2.2.2.2 rfl).2

end Insura
